import Mathlib

/-!
The adapter `react2angular`, from a React component to an AngularJS directive.

A shallow embedding of `src/react2angular.js`.  JavaScript values are a small
datatype with the language's truthiness and `typeof`; objects that the code
reads and writes by key (`props`, `changes`, the controller instance) are finite
maps written as functions from keys; objects that the code enumerates
(`bindings`, `require`, `transclude`, DOM attributes, the compiled fragments)
are association lists in enumeration order.  The collaborators (the AngularJS
scheduler, `$transclude`, `$compile`, `ReactDOM.render`, lodash) are not part of
the repository: calls to them are recorded in the state, or interpreted by a
`Host` parameter, and the lodash collection functions are written out with the
behaviour of lodash 4 (the file uses `toPairs` and `fromPairs`, which exist
from 4.0.0 on).
-/

namespace React2Angular

/-! ## JavaScript values -/

/-- The value under `dangerouslySetInnerHTML` or an attribute string, as it
occurs in the configuration object of an element built by `elementToReact`. -/
inductive ConfigVal
  | str (s : String)
  | html (markup : String)
  deriving DecidableEq, Repr

/-- The result of `React.createElement(type, config)`: the call is kept as
data, with the configuration object in the order its keys were written. -/
structure ReactElement where
  type : String
  config : List (String × ConfigVal)
  deriving DecidableEq, Repr

/-- A value that can occur in the array built by `nodesToReact`. -/
inductive Item
  | null
  | str (s : String)
  | element (e : ReactElement)
  deriving DecidableEq, Repr

/-- JavaScript values.  Numbers are the integers and `NaN`; `func` and `obj`
are references to functions and objects whose contents the adapter never
inspects; `dict` is a plain object with string values (a `transclude` map);
`ownProps` and `ownCompiled` are the references to the controller's own
`props` and `compiled` objects. -/
inductive Val
  | undefined
  | null
  | bool (b : Bool)
  | num (n : Int)
  | nan
  | str (s : String)
  | func (id : Nat)
  | obj (id : Nat)
  | dict (entries : List (String × String))
  | element (e : ReactElement)
  | array (items : List Item)
  | ownProps
  | ownCompiled
  deriving DecidableEq, Repr

/-- JavaScript `ToBoolean`. -/
def Val.truthy : Val → Bool
  | .undefined => false
  | .null => false
  | .bool b => b
  | .num n => n != 0
  | .nan => false
  | .str s => s != ""
  | _ => true

/-- JavaScript `typeof`. -/
def Val.typeof : Val → String
  | .undefined => "undefined"
  | .null => "object"
  | .bool _ => "boolean"
  | .num _ => "number"
  | .nan => "number"
  | .str _ => "string"
  | .func _ => "function"
  | _ => "object"

/-- Whether the value is an object (a map from keys to values): every
non-primitive value other than a function. -/
def Val.isObject : Val → Bool
  | .obj _ => true
  | .dict _ => true
  | .element _ => true
  | .array _ => true
  | .ownProps => true
  | .ownCompiled => true
  | _ => false

/-- Whether the value is a primitive: reading a property of it that it does
not have gives `undefined` (or raises, for `undefined` and `null`). -/
def Val.isPrimitive : Val → Bool
  | .undefined => true
  | .null => true
  | .bool _ => true
  | .num _ => true
  | .nan => true
  | .str _ => true
  | _ => false

/-- Whether the value can be called: calling any other value raises a
TypeError. -/
def Val.callable (v : Val) : Bool :=
  v.typeof == "function"

/-- The enumerable own entries of a value used as a map of strings, in
enumeration order. -/
def Val.entries : Val → List (String × String)
  | .dict m => m
  | _ => []

/-- `Boolean(item)` for the entries of a `nodesToReact` array. -/
def Item.truthy : Item → Bool
  | .null => false
  | .str s => s != ""
  | .element _ => true

/-! ## Objects -/

/-- An object enumerated by the code, as the list of its entries. -/
abbrev Obj (α : Type) := List (String × α)

/-- The assignment `o[k] = v` on an enumerated object: an existing key keeps its
place, a new key goes last. -/
def Obj.set {α : Type} : Obj α → String → α → Obj α
  | [], k, v => [(k, v)]
  | (k', v') :: rest, k, v =>
    if k' = k then (k, v) :: rest else (k', v') :: Obj.set rest k v

/-- The object built by assigning the given pairs in order (`_.fromPairs`, an
object spread). -/
def Obj.assignAll {α : Type} (o : Obj α) (pairs : List (String × α)) : Obj α :=
  pairs.foldl (fun acc p => Obj.set acc p.1 p.2) o

/-- An object read and written by key: `none` is an absent key. -/
abbrev Props := String → Option Val

/-- The empty object. -/
def Props.empty : Props := fun _ => none

/-- The read `p[k]`: an absent key reads as `undefined`. -/
def Props.read (p : Props) (k : String) : Val := (p k).getD .undefined

/-- The assignment `p[k] = v`. -/
def Props.set (p : Props) (k : String) (v : Val) : Props :=
  fun k' => if k' = k then some v else p k'

/-- `_.assign(\x7b\x7d, a, b)`: the keys of `b` override those of `a`. -/
def Props.assign (a b : Props) : Props :=
  fun k => match b k with
    | some v => some v
    | none => a k

/-! ## The adapter factory -/

/-- The options object received by `react2angular`. -/
structure Options where
  bindings : Option (Obj String)
  DI : Option (List String)
  require : Option (Obj String)
  hasChild : Val
  transclude : Val
  id : Val

/-- An entry of the `controller` array of the directive descriptor. -/
inductive Entry
  | name (s : String)
  | controllerClass
  deriving DecidableEq, Repr

/-- The directive descriptor returned by `react2angular`. -/
structure Descriptor where
  bindings : Option (Obj String)
  transclude : Val
  replace : Bool
  require : Obj String
  controller : List Entry

def coreDependencies : List String := ["$element", "$timeout"]

def transcludeDependencies : List String := ["$transclude", "$compile", "$scope"]

/-- Line 21: `transclude && typeof transclude === 'object'`, as a condition. -/
def hasTranscludeMap (o : Options) : Bool :=
  o.transclude.truthy && o.transclude.typeof == "object"

/-- Line 22: `hasChild || hasTranscludeMap`, as a condition. -/
def hasTransclusion (o : Options) : Bool :=
  o.hasChild.truthy || hasTranscludeMap o

/-- Lines 27-37: the dependency names, assembled by three pushes. -/
def dependencyNames (o : Options) : List String :=
  let names : List String := []
  let names := names ++ coreDependencies
  let names := if hasTransclusion o then names ++ transcludeDependencies else names
  match o.DI with
  | some di => if di.length != 0 then names ++ di else names
  | none => names

/-- Line 39: whether `render` goes through the scheduler. -/
def withTimeout (o : Options) : Bool :=
  hasTransclusion o ||
    (match o.require with
     | some r => decide (r.length > 0)
     | none => false)

/-- Lines 41-47 and 192-193: the returned descriptor. -/
def react2angular (o : Options) : Descriptor :=
  { bindings := o.bindings
    transclude := if o.transclude.truthy then o.transclude else .bool o.hasChild.truthy
    replace := true
    require := o.require.getD []
    controller := (dependencyNames o).map Entry.name ++ [Entry.controllerClass] }

/-! ## DOM conversion helpers -/

/-- A DOM node, as far as the adapter reads it.  Only elements have a tag name,
attributes and inner markup. -/
inductive Node
  | element (tagName : String) (attributes : List (String × String))
      (innerHTML : String) (textContent : String)
  | text (textContent : String)
  | cdata (data : String)
  | processingInstruction (data : String)
  | comment (data : String)
  deriving DecidableEq, Repr

/-- The DOM `nodeType` constant of a node. -/
def Node.nodeType : Node → Nat
  | .element _ _ _ _ => 1
  | .text _ => 3
  | .cdata _ => 4
  | .processingInstruction _ => 7
  | .comment _ => 8

/-- The read `node.tagName`: `none` is `undefined`. -/
def Node.tagName : Node → Option String
  | .element t _ _ _ => some t
  | _ => none

/-- The read `node.textContent`. -/
def Node.textContent : Node → String
  | .element _ _ _ t => t
  | .text t => t
  | .cdata d => d
  | .processingInstruction d => d
  | .comment d => d

/-- `String.prototype.replace(pattern, replacement)` for a string pattern and a
replacement without `$` patterns: the first occurrence of the pattern, and only
that one, is replaced. -/
def replaceFirst (pat rep : List Char) : List Char → List Char
  | [] => if pat.isEmpty then rep else []
  | c :: cs =>
    if pat.isPrefixOf (c :: cs) then rep ++ (c :: cs).drop pat.length
    else c :: replaceFirst pat rep cs

/-- Lines 197-199: `s.replace('?', '')`. -/
def strip (s : String) : String :=
  String.mk (replaceFirst ['?'] [] s.data)

/-- `String.prototype.toLowerCase` on the characters of a tag name (tag names of
HTML elements are ASCII). -/
def toLowerCase (s : String) : String :=
  String.mk (s.data.map Char.toLower)

/-- Lines 205-212: the attributes of a node as an object from name to value,
assigned in index order. -/
def getAttributes : Node → Obj String
  | .element _ attributes _ _ => Obj.assignAll [] attributes
  | _ => []

/-- Lines 243-259: drop the attributes on the deny-list, rename `class`, and
rebuild the object from the pairs. -/
def toReactAttributes (attributes : Obj String) : Obj String :=
  let filters : List String := ["ng-show"]
  let pairs := attributes.filter (fun pair => filters.all (fun f => f != pair.1))
  let pairs := pairs.map (fun pair => if pair.1 = "class" then ("className", pair.2) else pair)
  Obj.assignAll [] pairs

/-- Lines 267-276.  `none` is the TypeError raised by `node.tagName.toLowerCase()`
when the node has no tag name. -/
def elementToReact : Node → String → Option ReactElement
  | .element tag attributes innerHTML textContent, key =>
    let tagName := toLowerCase tag
    let config : Obj ConfigVal :=
      (toReactAttributes (getAttributes (.element tag attributes innerHTML textContent))).map
        (fun pair => (pair.1, ConfigVal.str pair.2))
    let config := Obj.set config "dangerouslySetInnerHTML" (.html innerHTML)
    let config := Obj.set config "key" (.str ("idx-" ++ tagName ++ "-" ++ key))
    some { type := tagName, config := config }
  | _, _ => none

/-- Lines 226-233: the function mapped over the nodes.  `none` is a TypeError
raised inside it. -/
def convertNode (node : Node) (key : Nat) : Option Item :=
  if node.nodeType = 1 then
    (elementToReact node (toString key)).map Item.element
  else if node.nodeType = 3 then
    some (Item.str node.textContent)
  else
    some Item.null

/-- Lines 219-235.  The argument `none` is an absent collection; the result
`none` is a TypeError, `some v` the returned value. -/
def nodesToReact : Option (List Node) → Option Val
  | none => some .null
  | some nodes =>
    if nodes.length = 0 then some .null
    else
      (nodes.enum.mapM (fun entry => convertNode entry.2 entry.1)).map
        (fun items => Val.array (items.filter Item.truthy))

/-! ## The controller -/

/-- The outcome of running a piece of the controller: normal completion, or an
exception raised with the state reached so far. -/
inductive Completion (σ : Type)
  | normal (s : σ)
  | thrown (error : String) (s : σ)

/-- The state carried by a completion of either kind. -/
def Completion.state {σ : Type} : Completion σ → σ
  | .normal s => s
  | .thrown _ s => s

/-- Whether the completion is a normal one. -/
def Completion.isNormal {σ : Type} : Completion σ → Bool
  | .normal _ => true
  | .thrown _ _ => false

/-- The two arrow functions the controller hands to its collaborators: the one
given to `$timeout` in `render` (lines 165-172) and the one pushed onto
`ngModel.$viewChangeListeners` in `$onChanges` (lines 92-94). -/
inductive Callback
  | deferredRender
  | viewChangeRender
  deriving DecidableEq, Repr

/-- A call `ReactDOM.render(React.createElement(Class, props), container)`:
the props object handed to the wrapped component and the element handle whose
first entry is the container. -/
structure RenderCall where
  props : Props
  container : Val

/-- The value of `this.compiled`: never assigned, the compiled node list of
single-child mode, or the object from prop name to first compiled node of
named-map mode (`none` is an `undefined` first node). -/
inductive Compiled
  | unset
  | nodes (ns : List Node)
  | map (m : Obj (Option Node))

/-- One entry of the `changes` object of `$onChanges`. -/
structure Change where
  currentValue : Val
  previousValue : Val
  deriving DecidableEq, Repr

/-- The `changes` object of `$onChanges`, read by key. -/
abbrev Changes := String → Option Change

/-- What a call `f(cb, null, slot)` of a transclusion function does: it raises
an exception, it returns without calling `cb`, or it calls `cb` with a clone. -/
inductive Transcluded
  | raises
  | skipped
  | cloned (clone : Val)

/-- The collaborators whose results the controller uses.
`transclude f slot` is what the call `f(cb, null, slot)` of a callable `f`
does (the slot is `none` when the call passes no slot);
`compile c clone scope` is the node list `c(clone)(scope)` for a callable `c`,
`none` when that raises an exception;
`lodashMatches source value` is the answer of the lodash matcher
`_.matches(source)` on `value`. -/
structure Host where
  transclude : Val → Option String → Transcluded
  compile : Val → Val → Val → Option (List Node)
  lodashMatches : Obj (Option Node) → Node → Bool

/-- The controller instance together with the calls it has made so far.
`self` is the property read `this[name]`, with the markers `ownProps` and
`ownCompiled` under `props` and `compiled`, whose contents are the fields
`props` and `compiled`; `viewChangeListeners` is the property
`$viewChangeListeners` of the object under `this.ngModel`, `none` when that
object has no such array; `scheduled` are the callbacks handed to `$timeout`,
`rendered` the `ReactDOM.render` calls and `unmounted` the
`ReactDOM.unmountComponentAtNode` calls, each oldest first. -/
structure Ctrl where
  self : String → Val
  props : Props
  compiled : Compiled
  viewChangeListeners : Option (List Callback)
  scheduled : List Callback
  rendered : List RenderCall
  unmounted : List Val

/-- The read `this.ngModel.$viewChangeListeners`: a primitive under `ngModel`
has no such array (`none` is `undefined`). -/
def ngModelListeners (c : Ctrl) : Option (List Callback) :=
  if (c.self "ngModel").isPrimitive then none else c.viewChangeListeners

/-- The assignment `this[name] = v`. -/
def setField (self : String → Val) (name : String) (v : Val) : String → Val :=
  fun k => if k = name then v else self k

/-- Lines 126-131: the calls of `$transclude` for the entries of the
`transclude` map, in order, starting from the compiled object `acc`.  The
result is the compiled object reached and whether an exception was raised:
by calling a value that is not callable, or inside a collaborator. -/
def compileEntries (host : Host) (transclude compile scope : Val) :
    List (String × String) → Obj (Option Node) → Obj (Option Node) × Bool
  | [], acc => (acc, false)
  | entry :: rest, acc =>
    if !transclude.callable then (acc, true)
    else
      match host.transclude transclude (some (strip entry.2)) with
      | .raises => (acc, true)
      | .skipped => compileEntries host transclude compile scope rest acc
      | .cloned clone =>
        if !compile.callable then (acc, true)
        else
          match host.compile compile clone scope with
          | none => (acc, true)
          | some nodes =>
            compileEntries host transclude compile scope rest (Obj.set acc entry.1 nodes.head?)

/-- Lines 124-136, with the three services already read from the dependencies. -/
def compileWith (o : Options) (host : Host) (transclude compile scope : Val) (c : Ctrl) :
    Completion Ctrl :=
  if hasTranscludeMap o then
    let result := compileEntries host transclude compile scope o.transclude.entries []
    let c := { c with self := setField c.self "compiled" .ownCompiled, compiled := .map result.1 }
    if result.2 then .thrown "TypeError" c else .normal c
  else if !transclude.callable then .thrown "TypeError" c
  else
    match host.transclude transclude none with
    | .raises => .thrown "TypeError" c
    | .skipped => .normal c
    | .cloned clone =>
      if !compile.callable then .thrown "TypeError" c
      else
        match host.compile compile clone scope with
        | none => .thrown "TypeError" c
        | some nodes =>
          .normal { c with self := setField c.self "compiled" .ownCompiled,
                           compiled := .nodes nodes }

/-- Lines 112-137. -/
def compileTransclusions (o : Options) (host : Host) (dependencies : List Val) (c : Ctrl) :
    Completion Ctrl :=
  if !hasTransclusion o then .normal c
  else
    let transclude := dependencies.getD 3 .undefined
    let compile := dependencies.getD 4 .undefined
    let scope := dependencies.getD 5 .undefined
    compileWith o host transclude compile scope c

/-- Lines 71-75: each remaining dependency goes into `props` under `DI[idx]`.
Reading `DI[idx]` of an absent `DI` raises a TypeError; an index past the end
of `DI` reads `undefined`, which as a property key is the string "undefined". -/
def assignDI (di : Option (List String)) (values : List Val) (c : Ctrl) : Completion Ctrl :=
  match values with
  | [] => .normal c
  | _ :: _ =>
    match di with
    | none => .thrown "TypeError" c
    | some names =>
      .normal { c with
        props := values.enum.foldl
          (fun p entry => Props.set p (names.getD entry.1 "undefined") entry.2) c.props }

/-- Lines 52-60: the props copied from the instance, for the binding names
whose value on the instance (read through `self`) is truthy. -/
def bindingProps (o : Options) (self : String → Val) : Props :=
  let names := ((o.bindings.getD []).map (fun entry => entry.1)).filter
    (fun name => (self name).truthy)
  names.foldl
    (fun p name => if name = "class" then Props.set p "className" (self "class")
      else Props.set p name (self name))
    Props.empty

/-- Lines 49-65: the instance after the constructor has set `props`,
`__isFirstRender`, `$element` and `$timeout`.  No listener has been pushed
onto the array of an object under `ngModel` yet. -/
def instantiate (o : Options) (inst : String → Val) (dependencies : List Val) : Ctrl :=
  let self := setField inst "props" .ownProps
  let props := bindingProps o self
  let self := setField self "__isFirstRender" (.bool true)
  let self := setField self "$element" (dependencies.getD 0 .undefined)
  let self := setField self "$timeout" (dependencies.getD 1 .undefined)
  { self := self, props := props, compiled := .unset, viewChangeListeners := some [],
    scheduled := [], rendered := [], unmounted := [] }

/-- Lines 48-76: the constructor, run on an instance whose property read is
`inst`, with the injected `dependencies`. -/
def construct (o : Options) (host : Host) (inst : String → Val) (dependencies : List Val) :
    Completion Ctrl :=
  let c := instantiate o inst dependencies
  match compileTransclusions o host dependencies c with
  | .thrown e c => .thrown e c
  | .normal c =>
    let offset := if hasTransclusion o then coreDependencies.length + transcludeDependencies.length
      else coreDependencies.length
    assignDI o.DI (dependencies.drop offset) c

/-- Lines 178-186. -/
def renderInstant (c : Ctrl) : Ctrl :=
  let props :=
    if (Props.read c.props "class").truthy then
      Props.set c.props "className" (Props.read c.props "class")
    else c.props
  { c with
    props := props
    rendered := c.rendered ++
      [{ props := Props.assign Props.empty props, container := c.self "$element" }] }

/-- A lodash value in a chain: still inside the wrapper made by `_(value)`, or
already taken out of it. -/
inductive Chain (α : Type)
  | wrapper (value : α)
  | unwrapped (value : α)

/-- `_(collection).filter(predicate)`: the array of the values the predicate
accepts, still wrapped.  `none` is a TypeError raised by the predicate. -/
def lodashFilter {α : Type} (values : List α) (predicate : α → Option Bool) :
    Option (Chain (List α)) :=
  (values.mapM (fun v => (predicate v).map (fun keep => (v, keep)))).map
    (fun marked => Chain.wrapper ((marked.filter (fun entry => entry.2)).map (fun entry => entry.1)))

/-- The chained `.each(iteratee, surplus)` of lodash 4.  The first argument is
the iteratee; it is called on the entries up to the first one it answers
`false` on; arguments after it are not used.  `each` ends the chain: the
result is the collection itself, outside the wrapper. -/
def lodashEach {α β : Type} (chain : Chain (List α)) (iteratee : α → Bool) (_surplus : β) :
    Chain (List α) :=
  match chain with
  | .wrapper collection =>
    let _visited := collection.takeWhile iteratee
    .unwrapped collection
  | .unwrapped collection => .unwrapped collection

/-- The call `.value()`: a wrapper gives its value; a plain array has no such
method, and `none` is the TypeError of calling it. -/
def Chain.value? {α : Type} : Chain α → Option α
  | .wrapper v => some v
  | .unwrapped _ => none

/-- The values of `this.compiled` as lodash enumerates them. -/
def Compiled.values : Compiled → List (Option Node)
  | .unset => []
  | .nodes ns => ns.map some
  | .map m => m.map (fun entry => entry.2)

/-- The source object of the matcher lodash builds when `this.compiled` is
passed where an iteratee is expected. -/
def Compiled.source : Compiled → Obj (Option Node)
  | .map m => m
  | _ => []

/-- Lines 145-160. -/
def setTransclusions (o : Options) (host : Host) (c : Ctrl) : Completion Ctrl :=
  if !hasTransclusion o then .normal c
  else if hasTranscludeMap o then
    match lodashFilter c.compiled.values
        (fun compiled => compiled.map (fun node => (node.tagName.getD "") != "")) with
    | none => .thrown "TypeError" c
    | some filtered =>
      let iteratee : Option Node → Bool := fun value =>
        match value with
        | some node => host.lodashMatches c.compiled.source node
        | none => false
      let assign : Props → Node → String → Option Props := fun props compiled propName =>
        (elementToReact compiled propName).map (fun e => Props.set props propName (.element e))
      match (lodashEach filtered iteratee assign).value? with
      | none => .thrown "TypeError" c
      | some _ => .normal c
  else
    let children :=
      match c.compiled with
      | .unset => nodesToReact none
      | .nodes ns => nodesToReact (some ns)
      | .map _ => none
    match children with
    | none => .thrown "TypeError" c
    | some v => .normal { c with props := Props.set c.props "children" v }

/-- Lines 166-171: the body of the callback handed to `$timeout`. -/
def deferredRender (o : Options) (host : Host) (c : Ctrl) : Completion Ctrl :=
  match setTransclusions o host c with
  | .thrown e c' => .thrown e c'
  | .normal c' =>
    let props := (o.require.getD []).foldl
      (fun p entry => Props.set p entry.1 (c'.self entry.1)) c'.props
    .normal (renderInstant { c' with props := props })

/-- Lines 162-176. -/
def render (o : Options) (c : Ctrl) : Ctrl :=
  if withTimeout o then
    { c with scheduled := c.scheduled ++ [Callback.deferredRender] }
  else
    renderInstant c

/-- Running one of the controller's callbacks. -/
def runCallback (o : Options) (host : Host) : Callback → Ctrl → Completion Ctrl
  | .deferredRender, c => deferredRender o host c
  | .viewChangeRender, c => .normal (render o c)

/-- Lines 89-97: on the first call, push the view-change listener when
`this.ngModel` is truthy, and clear the first-render flag.  The push raises a
TypeError, before the flag is cleared, when `this.ngModel` has no
`$viewChangeListeners` array. -/
def firstRenderSetup (c : Ctrl) : Completion Ctrl :=
  if (c.self "__isFirstRender").truthy then
    if (c.self "ngModel").truthy then
      match ngModelListeners c with
      | none => .thrown "TypeError" c
      | some listeners =>
        .normal { c with
          viewChangeListeners := some (listeners ++ [Callback.viewChangeRender])
          self := setField c.self "__isFirstRender" (.bool false) }
    else .normal { c with self := setField c.self "__isFirstRender" (.bool false) }
  else .normal c

/-- Lines 85-103. -/
def onChanges (o : Options) (c : Ctrl) (changes : Changes) : Completion Ctrl :=
  let newProps : Props := fun k => (changes k).map (fun change => change.currentValue)
  let nextProps := Props.assign (Props.assign Props.empty c.props) newProps
  match firstRenderSetup c with
  | .thrown e c => .thrown e c
  | .normal c =>
    let c := { c with props := nextProps }
    .normal (render o c)

/-- Lines 188-190. -/
def onDestroy (c : Ctrl) : Ctrl :=
  { c with unmounted := c.unmounted ++ [c.self "$element"] }

/-- A sequence of `$onChanges` calls, in order, up to the first one that
raises an exception. -/
def onChangesAll (o : Options) : Ctrl → List Changes → Completion Ctrl
  | c, [] => .normal c
  | c, changes :: rest =>
    match onChanges o c changes with
    | .thrown e c => .thrown e c
    | .normal c => onChangesAll o c rest

end React2Angular

namespace React2Angular

/-! ## Configurations and states used as concrete inputs -/

/-- The options `\x7bhasChild: true\x7d`: single-child transclusion, nothing else. -/
def singleChildOptions : Options :=
  { bindings := none, DI := none, require := none, hasChild := .bool true,
    transclude := .undefined, id := .undefined }

/-- The options `\x7btransclude: \x7bleft: '?leftDiv'\x7d\x7d` of the docstring. -/
def leftDivOptions : Options :=
  { bindings := none, DI := none, require := none, hasChild := .undefined,
    transclude := .dict [("left", "?leftDiv")], id := .undefined }

/-- The options `\x7bbindings: \x7b\x7d\x7d`: no transclusion, no required controller. -/
def plainOptions : Options :=
  { bindings := some [], DI := none, require := none, hasChild := .undefined,
    transclude := .undefined, id := .undefined }

/-- An injector that resolves each of the five service names to a reference of
its own. -/
def injectByName : String → Val
  | "$element" => .obj 0
  | "$timeout" => .func 1
  | "$transclude" => .func 2
  | "$compile" => .func 3
  | "$scope" => .obj 4
  | _ => .obj 5

/-- A host whose transclusion function always hands over a clone, whose
compiler turns every clone into one `left-div` element, and whose matcher
accepts nothing. -/
def leftDivHost : Host :=
  { transclude := fun _ _ => .cloned (.obj 10)
    compile := fun _ _ _ => some [Node.element "LEFT-DIV" [] "L" "L"]
    lodashMatches := fun _ _ => false }

/-- A controller with empty props that has made no call yet, on an instance
that holds its element handle and scheduler and nothing else. -/
def blankCtrl : Ctrl :=
  { self := setField (setField (fun _ => .undefined) "$element" (.obj 0)) "$timeout" (.func 1)
    props := Props.empty, compiled := .unset,
    viewChangeListeners := none, scheduled := [], rendered := [], unmounted := [] }

/-- A controller in named-map mode whose compiled fragment for `left` is a
`left-div` element. -/
def leftDivCtrl : Ctrl :=
  { blankCtrl with compiled := .map [("left", some (Node.element "LEFT-DIV" [] "L" "L"))] }

end React2Angular

namespace React2Angular

/-- A controller whose props hold an empty `class` next to a `className`. -/
def emptyClassCtrl : Ctrl :=
  { blankCtrl with
    props := Props.set (Props.set Props.empty "className" (.str "keep")) "class" (.str "") }

/-- The changes object with the one entry `key`, whose current value is `v`. -/
def singleChange (key : String) (v : Val) : Changes :=
  fun k => if k = key then some { currentValue := v, previousValue := .undefined } else none

end React2Angular

namespace React2Angular

/-- An instance, before its first `$onChanges`, to which an `ngModel`
controller without listeners is bound. -/
def ngModelCtrl : Ctrl :=
  { blankCtrl with
    self := setField (setField blankCtrl.self "__isFirstRender" (.bool true))
      "ngModel" (.obj 20)
    viewChangeListeners := some [] }

/-- An instance, before its first `$onChanges`, on which `ngModel` is the
string `"abc"`. -/
def textModelCtrl : Ctrl :=
  { blankCtrl with
    self := setField (setField blankCtrl.self "__isFirstRender" (.bool true))
      "ngModel" (.str "abc") }

/-- The options `\x7bbindings: \x7b\x7d, DI: ['$http']\x7d`. -/
def httpOptions : Options :=
  { bindings := some [], DI := some ["$http"], require := none, hasChild := .undefined,
    transclude := .undefined, id := .undefined }

/-- The options with the bindings `class` and `className`. -/
def classNameOptions : Options :=
  { bindings := some [("class", "@"), ("className", "@")], DI := none, require := none,
    hasChild := .undefined, transclude := .undefined, id := .undefined }

/-- An instance on which `class` is `"a"` and `className` is `"b"`. -/
def classNameInstance : String → Val :=
  setField (setField (fun _ => .undefined) "class" (.str "a")) "className" (.str "b")

/-- The options with the one binding `props`. -/
def propsBindingOptions : Options :=
  { bindings := some [("props", "<")], DI := none, require := none,
    hasChild := .undefined, transclude := .undefined, id := .undefined }

end React2Angular

namespace React2Angular

/-- The options with the bindings `name` and `class` and the dependency `$http`. -/
def boundOptions : Options :=
  { bindings := some [("name", "<"), ("class", "@")], DI := some ["$http"], require := none,
    hasChild := .undefined, transclude := .undefined, id := .undefined }

/-- An instance on which `class` is `"c"` and `name` is unset. -/
def boundInstance : String → Val :=
  setField (fun _ => .undefined) "class" (.str "c")

end React2Angular

namespace React2Angular

/-! ## Descriptions taken from the specification, to compare the code with -/

/-- What the specification says a node at index `i` is mapped to: an element
node to its element conversion with key `i`, a text node to its text content,
any other node to nothing. -/
def specEntry (node : Node) (i : Nat) : Option Item :=
  match node with
  | .element _ _ _ _ => (elementToReact node (toString i)).map Item.element
  | .text t => some (Item.str t)
  | _ => none

/-- The sequence the specification describes for the nodes from index `i` on:
the entries in order, without the nodes mapped to nothing and without falsy
results. -/
def specSequence (i : Nat) : List Node → List Item
  | [] => []
  | node :: rest =>
    match specEntry node i with
    | some item => if item.truthy then item :: specSequence (i + 1) rest
                   else specSequence (i + 1) rest
    | none => specSequence (i + 1) rest

/-- Node-list conversion as the specification describes it: `null` for an
absent or empty collection, otherwise the described sequence. -/
def nodeListConversion : Option (List Node) → Val
  | none => .null
  | some [] => .null
  | some (node :: rest) => .array (specSequence 0 (node :: rest))

/-- The states in which a `$onChanges` call cannot register its listener: the
first-render flag is truthy and `this.ngModel` is truthy but has no
`$viewChangeListeners` array. -/
def registrationRaises (c : Ctrl) : Bool :=
  (c.self "__isFirstRender").truthy && (c.self "ngModel").truthy
    && (ngModelListeners c).isNone

/-- The renaming of the specification: `class` becomes `className`, every
other key stays. -/
def renameClass (k : String) : String :=
  if k = "class" then "className" else k

end React2Angular

namespace React2Angular

/-! ## Shared lemmas -/

theorem hasTranscludeMap_eq_isObject (o : Options) :
    hasTranscludeMap o = o.transclude.isObject := by
  unfold hasTranscludeMap
  cases o.transclude <;> simp [Val.truthy, Val.typeof, Val.isObject]

theorem hasTransclusion_iff (o : Options) :
    hasTransclusion o = true ↔ (o.hasChild.truthy = true ∨ o.transclude.isObject = true) := by
  simp [hasTransclusion, hasTranscludeMap_eq_isObject]

theorem dependencyNames_eq (o : Options) :
    dependencyNames o =
      ["$element", "$timeout"]
        ++ (if hasTransclusion o then ["$transclude", "$compile", "$scope"] else [])
        ++ o.DI.getD [] := by
  unfold dependencyNames coreDependencies transcludeDependencies
  cases hdi : o.DI with
  | none => cases hasTransclusion o <;> simp
  | some di =>
    cases di with
    | nil => cases hasTransclusion o <;> simp
    | cons d ds => cases hasTransclusion o <;> simp

/-! ## The claims -/

/-- C1: the `controller` field of the descriptor is the two core names, then
the three transclusion names exactly when `hasChild` is truthy or `transclude`
is an object, then the names of `DI` in their order, then the controller
class; its length is 2 + (3 or 0) + |DI| + 1. -/
theorem controller_is_names_then_class (o : Options) :
    (react2angular o).controller =
        [Entry.name "$element", Entry.name "$timeout"]
          ++ (if o.hasChild.truthy = true ∨ o.transclude.isObject = true then
                [Entry.name "$transclude", Entry.name "$compile", Entry.name "$scope"]
              else [])
          ++ (o.DI.getD []).map Entry.name
          ++ [Entry.controllerClass]
      ∧ (react2angular o).controller.length =
          2 + (if o.hasChild.truthy = true ∨ o.transclude.isObject = true then 3 else 0)
            + (o.DI.getD []).length + 1 := by
  have hc : (react2angular o).controller =
      (dependencyNames o).map Entry.name ++ [Entry.controllerClass] := rfl
  rw [hc, dependencyNames_eq]
  by_cases h : hasTransclusion o = true
  · have h' := (hasTransclusion_iff o).mp h
    simp [h, h']
    omega
  · have h' : ¬ (o.hasChild.truthy = true ∨ o.transclude.isObject = true) :=
      fun hh => h ((hasTransclusion_iff o).mpr hh)
    simp [h, h']
    omega

end React2Angular

namespace React2Angular

theorem enumFrom_foldl_names (inj : String → Val) (names pre : List String) (p : Props) :
    ((names.map inj).enumFrom pre.length).foldl
        (fun q entry => Props.set q ((pre ++ names).getD entry.1 "undefined") entry.2) p
      = names.foldl (fun q d => Props.set q d (inj d)) p := by
  induction names generalizing pre p with
  | nil => simp
  | cons d ds ih =>
    simp only [List.map_cons, List.enumFrom_cons, List.foldl_cons]
    have h1 : (pre ++ d :: ds).getD pre.length "undefined" = d := by
      rw [List.getD_eq_getElem?_getD, List.getElem?_append_right (Nat.le_refl _)]
      simp
    rw [h1]
    have h2 := ih (pre ++ [d]) (Props.set p d (inj d))
    simp only [List.length_append, List.length_singleton, List.append_assoc,
      List.singleton_append] at h2
    exact h2

theorem assignDI_injected (di : Option (List String)) (inj : String → Val) (c : Ctrl) :
    assignDI di ((di.getD []).map inj) c =
      .normal { c with props := (di.getD []).foldl (fun q d => Props.set q d (inj d)) c.props } := by
  cases di with
  | none => simp [assignDI]
  | some names =>
    cases names with
    | nil => simp [assignDI]
    | cons d ds =>
      have h := enumFrom_foldl_names inj (d :: ds) [] c.props
      simp only [List.length_nil, List.nil_append] at h
      simp only [assignDI, Option.getD_some, List.map_cons, List.enum]
      rw [← h]
      simp

end React2Angular

namespace React2Angular

theorem drop_offset_injected (o : Options) (inj : String → Val) :
    ((dependencyNames o).map inj).drop
        (if hasTransclusion o then coreDependencies.length + transcludeDependencies.length
          else coreDependencies.length)
      = (o.DI.getD []).map inj := by
  rw [dependencyNames_eq]
  cases hasTransclusion o <;> simp [coreDependencies, transcludeDependencies]

theorem compileWith_self (o : Options) (host : Host) (t cmp sc : Val) (c : Ctrl)
    (k : String) (hk : k ≠ "compiled") :
    (compileWith o host t cmp sc c).state.self k = c.self k := by
  unfold compileWith
  by_cases h2 : hasTranscludeMap o = true
  · simp only [h2, if_true]
    cases (compileEntries host t cmp sc o.transclude.entries []).2 <;>
      simp [Completion.state, setField, hk]
  · simp only [h2]
    by_cases ht : t.callable = true
    · simp only [ht, Bool.not_true, Bool.false_eq_true, if_false]
      cases host.transclude t none with
      | raises => rfl
      | skipped => rfl
      | cloned clone =>
        by_cases hcmp : cmp.callable = true
        · simp only [hcmp, Bool.not_true, Bool.false_eq_true, if_false]
          cases host.compile cmp clone sc <;> simp [Completion.state, setField, hk]
        · simp [hcmp, Completion.state]
    · simp [ht, Completion.state]

theorem compileWith_props (o : Options) (host : Host) (t cmp sc : Val) (c : Ctrl) :
    (compileWith o host t cmp sc c).state.props = c.props := by
  unfold compileWith
  by_cases h2 : hasTranscludeMap o = true
  · simp only [h2, if_true]
    cases (compileEntries host t cmp sc o.transclude.entries []).2 <;>
      simp [Completion.state]
  · simp only [h2]
    by_cases ht : t.callable = true
    · simp only [ht, Bool.not_true, Bool.false_eq_true, if_false]
      cases host.transclude t none with
      | raises => rfl
      | skipped => rfl
      | cloned clone =>
        by_cases hcmp : cmp.callable = true
        · simp only [hcmp, Bool.not_true, Bool.false_eq_true, if_false]
          cases host.compile cmp clone sc <;> simp [Completion.state]
        · simp [hcmp, Completion.state]
    · simp [ht, Completion.state]

theorem compileTransclusions_self (o : Options) (host : Host) (deps : List Val) (c : Ctrl)
    (k : String) (hk : k ≠ "compiled") :
    (compileTransclusions o host deps c).state.self k = c.self k := by
  unfold compileTransclusions
  by_cases h1 : hasTransclusion o = true
  · simp only [h1, Bool.not_true, Bool.false_eq_true, if_false]
    exact compileWith_self _ _ _ _ _ _ _ hk
  · simp [h1, Completion.state]

theorem compileTransclusions_props (o : Options) (host : Host) (deps : List Val) (c : Ctrl) :
    (compileTransclusions o host deps c).state.props = c.props := by
  unfold compileTransclusions
  by_cases h1 : hasTransclusion o = true
  · simp only [h1, Bool.not_true, Bool.false_eq_true, if_false]
    exact compileWith_props _ _ _ _ _ _
  · simp [h1, Completion.state]

theorem assignDI_self (di : Option (List String)) (values : List Val) (c : Ctrl) :
    (assignDI di values c).state.self = c.self := by
  unfold assignDI
  cases values with
  | nil => rfl
  | cons v vs => cases di <;> rfl

theorem construct_eq (o : Options) (host : Host) (inst : String → Val) (deps : List Val) :
    construct o host inst deps =
      match compileTransclusions o host deps (instantiate o inst deps) with
      | .thrown e c => .thrown e c
      | .normal c =>
        assignDI o.DI
          (deps.drop (if hasTransclusion o then
            coreDependencies.length + transcludeDependencies.length
            else coreDependencies.length)) c := rfl

theorem construct_self (o : Options) (host : Host) (inst : String → Val) (deps : List Val)
    (k : String) (hk : k ≠ "compiled") :
    (construct o host inst deps).state.self k = (instantiate o inst deps).self k := by
  have h := compileTransclusions_self o host deps (instantiate o inst deps) k hk
  rw [construct_eq]
  cases hc : compileTransclusions o host deps (instantiate o inst deps) with
  | thrown e c₁ =>
    rw [hc] at h
    exact h
  | normal c₁ =>
    rw [hc] at h
    simp only [assignDI_self]
    exact h

theorem construct_injected (o : Options) (host : Host) (inst inj : String → Val) (c : Ctrl)
    (h : construct o host inst ((dependencyNames o).map inj) = Completion.normal c) :
    c.props = (o.DI.getD []).foldl (fun q d => Props.set q d (inj d))
      (bindingProps o (setField inst "props" Val.ownProps)) := by
  have hp := compileTransclusions_props o host ((dependencyNames o).map inj)
    (instantiate o inst ((dependencyNames o).map inj))
  rw [construct_eq] at h
  cases hc : compileTransclusions o host ((dependencyNames o).map inj)
      (instantiate o inst ((dependencyNames o).map inj)) with
  | thrown e c₁ =>
    rw [hc] at h
    cases h
  | normal c₁ =>
    rw [hc] at h hp
    simp only [drop_offset_injected, assignDI_injected] at h
    cases h
    simp only [Completion.state] at hp
    show List.foldl _ c₁.props _ = _
    rw [hp]
    rfl

theorem construct_completes_without_transclusion (o : Options) (host : Host)
    (inst inj : String → Val) (h : hasTransclusion o = false) :
    ∃ c, construct o host inst ((dependencyNames o).map inj) = Completion.normal c := by
  rw [construct_eq]
  have hc : compileTransclusions o host ((dependencyNames o).map inj)
      (instantiate o inst ((dependencyNames o).map inj)) =
        Completion.normal (instantiate o inst ((dependencyNames o).map inj)) := by
    simp [compileTransclusions, h]
  rw [hc]
  simp only [drop_offset_injected, assignDI_injected]
  exact ⟨_, rfl⟩

/-- Whenever transclusion is requested and the dependencies are injected
positionally, `compileTransclusions` takes as transclusion function, compiler
and scope the values injected for the names one position further on. -/
theorem compileTransclusions_reads_shifted (o : Options) (host : Host) (inj : String → Val)
    (h : hasTransclusion o = true) :
    (dependencyNames o)[2]? = some "$transclude"
      ∧ (dependencyNames o)[3]? = some "$compile"
      ∧ (dependencyNames o)[4]? = some "$scope"
      ∧ compileTransclusions o host ((dependencyNames o).map inj) =
          compileWith o host (inj "$compile") (inj "$scope")
            (((o.DI.getD []).map inj).getD 0 .undefined) := by
  have hnames : dependencyNames o =
      "$element" :: "$timeout" :: "$transclude" :: "$compile" :: "$scope" :: o.DI.getD [] := by
    rw [dependencyNames_eq]; simp [h]
  refine ⟨by simp [hnames], by simp [hnames], by simp [hnames], ?_⟩
  funext c
  simp [compileTransclusions, h, hnames, List.getD_eq_getElem?_getD]

/-- C2, evaluated at `hasChild: true` with positional injection: the names
`$transclude`, `$compile`, `$scope` stand at positions 2, 3, 4 of the
`controller` list, while `compileTransclusions` reads positions 3, 4, 5 and so
works with the compiler as transclusion function, the scope as compiler and
`undefined` as scope; positions 0 and 1 are read for `$element` and `$timeout`
as named. -/
theorem compileTransclusions_positions_off_by_one :
    (react2angular singleChildOptions).controller =
        [Entry.name "$element", Entry.name "$timeout", Entry.name "$transclude",
          Entry.name "$compile", Entry.name "$scope", Entry.controllerClass]
      ∧ (∀ host : Host,
          compileTransclusions singleChildOptions host
              ((dependencyNames singleChildOptions).map injectByName) =
            compileWith singleChildOptions host (injectByName "$compile")
              (injectByName "$scope") Val.undefined)
      ∧ injectByName "$compile" ≠ injectByName "$transclude"
      ∧ injectByName "$scope" ≠ injectByName "$compile"
      ∧ Val.undefined ≠ injectByName "$scope"
      ∧ (∀ host : Host,
          (construct singleChildOptions host (fun _ => Val.undefined)
              ((dependencyNames singleChildOptions).map injectByName)).state.self "$element"
            = injectByName "$element"
          ∧ (construct singleChildOptions host (fun _ => Val.undefined)
              ((dependencyNames singleChildOptions).map injectByName)).state.self "$timeout"
            = injectByName "$timeout") := by
  have hT : hasTransclusion singleChildOptions = true := by decide
  refine ⟨by decide, ?_, by decide, by decide, by decide, ?_⟩
  · intro host
    exact (compileTransclusions_reads_shifted singleChildOptions host injectByName hT).2.2.2
  · intro host
    constructor
    · rw [construct_self _ _ _ _ _ (by decide)]; decide
    · rw [construct_self _ _ _ _ _ (by decide)]; decide

end React2Angular

namespace React2Angular

theorem replaceFirst_question (a b : List Char) (h : '?' ∉ a) :
    replaceFirst ['?'] [] (a ++ '?' :: b) = a ++ b := by
  induction a with
  | nil => simp [replaceFirst, List.isPrefixOf]
  | cons c cs ih =>
    have hc : ¬ '?' = c := fun e => h (e ▸ List.mem_cons_self _ _)
    have hcs : '?' ∉ cs := fun e => h (by simp [e])
    simp [replaceFirst, List.isPrefixOf, hc, ih hcs]

theorem replaceFirst_absent (a : List Char) (h : '?' ∉ a) :
    replaceFirst ['?'] [] a = a := by
  induction a with
  | nil => simp [replaceFirst]
  | cons c cs ih =>
    have hc : ¬ '?' = c := fun e => h (e ▸ List.mem_cons_self _ _)
    have hcs : '?' ∉ cs := fun e => h (by simp [e])
    simp [replaceFirst, List.isPrefixOf, hc, ih hcs]

/-- C10, as the claim states it, fails: `strip("a?b")` is `"ab"` although
`"a?b"` does not start with the marker. -/
theorem strip_removes_inner_marker :
    strip "a?b" = "ab" ∧ strip "a?b" ≠ "a?b" ∧ ("a?b".data.head? ≠ some '?') := by
  decide

/-- C10, amended: `strip` removes the first `?` of the selector, wherever it
stands, and nothing else; a selector without `?` is returned unchanged.  So a
leading marker is removed, and `strip("?leftDiv")` and `strip("leftDiv")` are
both `"leftDiv"`. -/
theorem strip_removes_first_marker (a b : String) (h : '?' ∉ a.data) :
    strip (a ++ "?" ++ b) = a ++ b
      ∧ strip a = a
      ∧ strip ("?" ++ b) = b
      ∧ strip "?leftDiv" = "leftDiv"
      ∧ strip "leftDiv" = "leftDiv" := by
  refine ⟨?_, ?_, ?_, by decide, by decide⟩
  · apply String.ext
    simp only [strip, String.data_append]
    rw [List.append_assoc]
    exact replaceFirst_question a.data b.data h
  · apply String.ext
    simp only [strip]
    exact replaceFirst_absent a.data h
  · apply String.ext
    simp only [strip, String.data_append]
    exact replaceFirst_question [] b.data (by simp)

theorem strip_removes_first_marker_witness :
    '?' ∉ "left".data
      ∧ strip ("left" ++ "?" ++ "Div") = "left" ++ "Div" :=
  ⟨by decide, (strip_removes_first_marker "left" "Div" (by decide)).1⟩

end React2Angular

namespace React2Angular

theorem mapM_convertNode (nodes : List Node) (i : Nat) :
    ∃ items, (nodes.enumFrom i).mapM (fun entry => convertNode entry.2 entry.1) = some items
      ∧ items.filter Item.truthy = specSequence i nodes := by
  induction nodes generalizing i with
  | nil => exact ⟨[], rfl, by simp [specSequence]⟩
  | cons node rest ih =>
    obtain ⟨items, h1, h2⟩ := ih (i + 1)
    cases node with
    | element t a h x =>
      obtain ⟨e, he⟩ : ∃ e, elementToReact (Node.element t a h x) (toString i) = some e :=
        ⟨_, rfl⟩
      refine ⟨Item.element e :: items, ?_, ?_⟩
      · simp only [List.enumFrom_cons, List.mapM_cons, h1]
        simp [convertNode, Node.nodeType, he]
      · simp [specSequence, specEntry, he, Item.truthy, h2]
    | text t =>
      refine ⟨Item.str t :: items, ?_, ?_⟩
      · simp only [List.enumFrom_cons, List.mapM_cons, h1]
        simp [convertNode, Node.nodeType, Node.textContent]
      · by_cases ht : t = "" <;> simp [specSequence, specEntry, Item.truthy, h2, ht, List.filter_cons]
    | cdata d =>
      refine ⟨Item.null :: items, ?_, ?_⟩
      · simp only [List.enumFrom_cons, List.mapM_cons, h1]
        simp [convertNode, Node.nodeType]
      · simp [specSequence, specEntry, Item.truthy, h2, List.filter_cons]
    | processingInstruction d =>
      refine ⟨Item.null :: items, ?_, ?_⟩
      · simp only [List.enumFrom_cons, List.mapM_cons, h1]
        simp [convertNode, Node.nodeType]
      · simp [specSequence, specEntry, Item.truthy, h2, List.filter_cons]
    | comment d =>
      refine ⟨Item.null :: items, ?_, ?_⟩
      · simp only [List.enumFrom_cons, List.mapM_cons, h1]
        simp [convertNode, Node.nodeType]
      · simp [specSequence, specEntry, Item.truthy, h2, List.filter_cons]

theorem nodesToReact_total (nodes : Option (List Node)) :
    nodesToReact nodes = some (nodeListConversion nodes) := by
  cases nodes with
  | none => rfl
  | some ns =>
    cases ns with
    | nil => rfl
    | cons node rest =>
      obtain ⟨items, h1, h2⟩ := mapM_convertNode (node :: rest) 0
      have hdef : nodesToReact (some (node :: rest)) =
          ((List.enumFrom 0 (node :: rest)).mapM
            (fun entry => convertNode entry.2 entry.1)).map
              (fun items => Val.array (items.filter Item.truthy)) := rfl
      rw [hdef, h1, Option.map_some', h2]
      rfl

/-- C6: `nodesToReact` returns, for every node collection, the node-list
conversion of the specification: `null` for an absent or empty collection,
otherwise the nodes in order, an element at index `i` as
`elementToReact(node, i)`, a text node as its text content, other nodes and
falsy results left out.  For the list of `<span>hi</span>` and the text `x`
the result has the two entries: the element of type `span` with inner markup
`hi` and key `idx-span-0`, and the string `x`. -/
theorem nodesToReact_is_nodeListConversion :
    (∀ nodes : Option (List Node), nodesToReact nodes = some (nodeListConversion nodes))
      ∧ nodesToReact (some [Node.element "SPAN" [] "hi" "hi", Node.text "x"]) =
          some (Val.array
            [Item.element
              { type := "span"
                config := [("dangerouslySetInnerHTML", ConfigVal.html "hi"),
                           ("key", ConfigVal.str "idx-span-0")] },
             Item.str "x"]) := by
  exact ⟨nodesToReact_total, by decide⟩

end React2Angular

namespace React2Angular

theorem assign_empty (p : Props) : Props.assign Props.empty p = p := by
  funext k
  simp only [Props.assign, Props.empty]
  cases p k <;> rfl

/-- C7, as the claim states it, fails: with props holding the key `class` with
the empty string and `className` `"keep"`, on a controller that holds its
element handle, the props handed to the component have `className` `"keep"`,
not the value of `class`. -/
theorem renderInstant_keeps_className_on_empty_class :
    (emptyClassCtrl.props "class").isSome = true
      ∧ emptyClassCtrl.props "class" = some (Val.str "")
      ∧ (renderInstant emptyClassCtrl).rendered.map (fun call => call.props "className")
          = [some (Val.str "keep")]
      ∧ (renderInstant emptyClassCtrl).rendered.map (fun call => call.container)
          = [Val.obj 0] := by
  decide

/-- C7, amended: `renderInstant` makes exactly one render call, and the props
it hands over are the props before the commit except that `className` is the
value of `class` when that value is truthy; when `class` is absent or falsy,
`className` is handed over as it was. -/
theorem renderInstant_className (c : Ctrl) :
    ∃ call, (renderInstant c).rendered = c.rendered ++ [call]
      ∧ call.container = c.self "$element"
      ∧ ∀ k, call.props k =
          if k = "className" ∧ (Props.read c.props "class").truthy = true then
            some (Props.read c.props "class")
          else c.props k := by
  refine ⟨_, rfl, rfl, ?_⟩
  intro k
  simp only [assign_empty]
  by_cases ht : (Props.read c.props "class").truthy = true
  · by_cases hk : k = "className" <;> simp [ht, hk, Props.set]
  · simp [ht]

/-- C3, as the claim states it, fails in two ways.  Without transclusion and
required controllers, `$onChanges` with the one change `class = "a"` on empty
props completes and leaves `className` set to `"a"`, a key that is not in the
changes and was absent before.  And on a first call with the string `"abc"`
under `ngModel`, `$onChanges` with a change of `x` raises a TypeError and
leaves props without `x`. -/
theorem onChanges_touches_className :
    (singleChange "class" (Val.str "a") "className" = none
        ∧ blankCtrl.props "className" = none
        ∧ (onChanges plainOptions blankCtrl (singleChange "class" (Val.str "a"))).isNormal = true
        ∧ (onChanges plainOptions blankCtrl (singleChange "class" (Val.str "a"))).state.props
            "className" = some (Val.str "a"))
      ∧ ((singleChange "x" (Val.num 1) "x").isSome = true
        ∧ (onChanges plainOptions textModelCtrl (singleChange "x" (Val.num 1))).isNormal = false
        ∧ (onChanges plainOptions textModelCtrl (singleChange "x" (Val.num 1))).state.props "x"
            = none) := by
  decide

theorem render_props (o : Options) (c : Ctrl) (k : String) :
    (render o c).props k =
      if k = "className" ∧ withTimeout o = false ∧ (Props.read c.props "class").truthy = true then
        some (Props.read c.props "class")
      else c.props k := by
  unfold render
  by_cases hw : withTimeout o = true
  · simp [hw]
  · simp only [hw, if_false]
    have hw' : withTimeout o = false := by simpa using hw
    simp only [renderInstant, hw', true_and]
    by_cases ht : (Props.read c.props "class").truthy = true
    · by_cases hk : k = "className" <;> simp [ht, hk, Props.set]
    · simp [ht]

theorem render_self (o : Options) (c : Ctrl) : (render o c).self = c.self := by
  unfold render renderInstant
  by_cases hw : withTimeout o = true <;> simp [hw]

theorem render_listeners (o : Options) (c : Ctrl) :
    (render o c).viewChangeListeners = c.viewChangeListeners := by
  unfold render renderInstant
  by_cases hw : withTimeout o = true <;> simp [hw]

theorem firstRenderSetup_raises (c : Ctrl) (h : registrationRaises c = true) :
    firstRenderSetup c = Completion.thrown "TypeError" c := by
  simp only [registrationRaises, Bool.and_eq_true, Option.isNone_iff_eq_none] at h
  obtain ⟨⟨h1, h2⟩, h3⟩ := h
  simp only [firstRenderSetup, h1, h2, h3, if_true]

theorem firstRenderSetup_completes (c : Ctrl) (h : registrationRaises c = false) :
    ∃ c₁, firstRenderSetup c = Completion.normal c₁
      ∧ (c₁.self "__isFirstRender").truthy = false
      ∧ c₁.self "ngModel" = c.self "ngModel" := by
  unfold firstRenderSetup
  by_cases h1 : (c.self "__isFirstRender").truthy = true
  · by_cases h2 : (c.self "ngModel").truthy = true
    · cases h3 : ngModelListeners c with
      | none => simp [registrationRaises, h1, h2, h3] at h
      | some listeners =>
        simp only [h1, h2, if_true]
        exact ⟨_, rfl, by simp [setField, Val.truthy], by simp [setField]⟩
    · simp only [h1, h2, if_true, if_false]
      exact ⟨_, rfl, by simp [setField, Val.truthy], by simp [setField]⟩
  · simp only [h1, if_false]
    exact ⟨_, rfl, by simpa using h1, rfl⟩

theorem onChanges_of_setup (o : Options) (c c₀ : Ctrl) (changes : Changes)
    (h : firstRenderSetup c = Completion.normal c₀) :
    onChanges o c changes =
      Completion.normal (render o { c₀ with
        props := Props.assign (Props.assign Props.empty c.props)
          (fun k => (changes k).map (fun change => change.currentValue)) }) := by
  simp only [onChanges, h]

theorem onChanges_raises (o : Options) (c : Ctrl) (changes : Changes)
    (h : registrationRaises c = true) :
    onChanges o c changes = Completion.thrown "TypeError" c := by
  simp only [onChanges, firstRenderSetup_raises c h]

theorem onChanges_completes (o : Options) (c : Ctrl) (changes : Changes)
    (h : registrationRaises c = false) :
    ∃ c₁, onChanges o c changes = Completion.normal c₁
      ∧ registrationRaises c₁ = false
      ∧ ∀ k, c₁.props k =
        if k = "className" ∧ withTimeout o = false
            ∧ ((match changes "class" with
                | some change => change.currentValue
                | none => Props.read c.props "class").truthy = true) then
          some (match changes "class" with
                | some change => change.currentValue
                | none => Props.read c.props "class")
        else
          match changes k with
          | some change => some change.currentValue
          | none => c.props k := by
  obtain ⟨c₀, h0, hflag, _⟩ := firstRenderSetup_completes c h
  refine ⟨_, onChanges_of_setup o c c₀ changes h0, ?_, ?_⟩
  · simp [registrationRaises, render_self, hflag]
  · intro k
    rw [render_props]
    simp only [assign_empty]
    have hread : Props.read
        (Props.assign c.props (fun k => (changes k).map (fun change => change.currentValue)))
        "class" =
        (match changes "class" with
          | some change => change.currentValue
          | none => Props.read c.props "class") := by
      simp only [Props.read, Props.assign]
      cases changes "class" <;> simp
    simp only [hread]
    have hk : Props.assign c.props (fun k => (changes k).map (fun change => change.currentValue)) k
        = (match changes k with
          | some change => some change.currentValue
          | none => c.props k) := by
      simp only [Props.assign]
      cases changes k <;> simp
    simp only [hk]

/-- C3, amended: on a first call on which `this.ngModel` is truthy but has no
`$viewChangeListeners` array, `$onChanges(changes)` raises a TypeError and
leaves the controller as it was; in every other state, after the call every
key other than `className` holds the current value of its change when it is
in `changes`, and what it held before otherwise; `className` does too when
the render is deferred or the merged `class` is falsy, and otherwise
(synchronous render, truthy merged `class`) it holds the merged `class`; and
two successive calls on the key `x` leave `props.x` at the second value. -/
theorem onChanges_merges_props (o : Options) (c : Ctrl) (changes : Changes) :
    (registrationRaises c = true →
        onChanges o c changes = Completion.thrown "TypeError" c)
      ∧ (registrationRaises c = false →
          ∀ k, (onChanges o c changes).state.props k =
            if k = "className" ∧ withTimeout o = false
                ∧ ((match changes "class" with
                    | some change => change.currentValue
                    | none => Props.read c.props "class").truthy = true) then
              some (match changes "class" with
                    | some change => change.currentValue
                    | none => Props.read c.props "class")
            else
              match changes k with
              | some change => some change.currentValue
              | none => c.props k)
      ∧ (registrationRaises c = false →
          ∀ v1 v2 : Val,
            (onChanges o (onChanges o c (singleChange "x" v1)).state
              (singleChange "x" v2)).state.props "x" = some v2) := by
  refine ⟨onChanges_raises o c changes, ?_, ?_⟩
  · intro h
    obtain ⟨c₁, h1, _, h3⟩ := onChanges_completes o c changes h
    rw [h1]
    exact h3
  · intro h v1 v2
    obtain ⟨c₁, h1, hflag, _⟩ := onChanges_completes o c (singleChange "x" v1) h
    obtain ⟨c₂, h2, _, hprops⟩ := onChanges_completes o c₁ (singleChange "x" v2) hflag
    rw [h1]
    simp only [Completion.state]
    rw [h2]
    simp only [Completion.state]
    rw [hprops]
    simp [singleChange]

theorem onChanges_merges_props_witness :
    registrationRaises ngModelCtrl = false
      ∧ (onChanges plainOptions
            (onChanges plainOptions ngModelCtrl (singleChange "x" (Val.num 1))).state
            (singleChange "x" (Val.num 2))).state.props "x" = some (Val.num 2) :=
  ⟨by decide,
    (onChanges_merges_props plainOptions ngModelCtrl (singleChange "x" (Val.num 1))).2.2
      (by decide) (Val.num 1) (Val.num 2)⟩

end React2Angular

namespace React2Angular

theorem onChanges_after_first (o : Options) (c : Ctrl) (changes : Changes)
    (h : (c.self "__isFirstRender").truthy = false) :
    ∃ c₁, onChanges o c changes = Completion.normal c₁
      ∧ c₁.self = c.self ∧ c₁.viewChangeListeners = c.viewChangeListeners := by
  have hsetup : firstRenderSetup c = Completion.normal c := by
    simp [firstRenderSetup, h]
  refine ⟨_, onChanges_of_setup o c c changes hsetup, ?_, ?_⟩
  · rw [render_self]
  · rw [render_listeners]

theorem onChangesAll_after_first (o : Options) (calls : List Changes) (c : Ctrl)
    (h : (c.self "__isFirstRender").truthy = false) :
    ∃ cₙ, onChangesAll o c calls = Completion.normal cₙ
      ∧ ngModelListeners cₙ = ngModelListeners c := by
  induction calls generalizing c with
  | nil => exact ⟨c, rfl, rfl⟩
  | cons ch rest ih =>
    obtain ⟨c₁, h1, hs, hl⟩ := onChanges_after_first o c ch h
    obtain ⟨cₙ, hn, hln⟩ := ih c₁ (by rw [hs]; exact h)
    refine ⟨cₙ, by simp only [onChangesAll, h1, hn], ?_⟩
    rw [hln]
    simp only [ngModelListeners, hs, hl]

theorem onChanges_first_registers (o : Options) (c : Ctrl) (changes : Changes)
    (listeners : List Callback)
    (hfirst : c.self "__isFirstRender" = Val.bool true)
    (hmodel : (c.self "ngModel").truthy = true)
    (hctrl : ngModelListeners c = some listeners) :
    ∃ c₁, onChanges o c changes = Completion.normal c₁
      ∧ (c₁.self "__isFirstRender").truthy = false
      ∧ ngModelListeners c₁ = some (listeners ++ [Callback.viewChangeRender]) := by
  have ht : (Val.bool true).truthy = true := rfl
  have hsetup : firstRenderSetup c = Completion.normal
      { c with
        viewChangeListeners := some (listeners ++ [Callback.viewChangeRender])
        self := setField c.self "__isFirstRender" (Val.bool false) } := by
    simp only [firstRenderSetup, hfirst, ht, hmodel, hctrl, if_true]
  have hprim : (c.self "ngModel").isPrimitive = false := by
    cases hp : (c.self "ngModel").isPrimitive with
    | false => rfl
    | true => simp [ngModelListeners, hp] at hctrl
  refine ⟨_, onChanges_of_setup o c _ changes hsetup, ?_, ?_⟩
  · rw [render_self]
    simp [setField, Val.truthy]
  · simp only [ngModelListeners, render_self, render_listeners]
    simp [setField, hprim]

/-- C9: the constructor leaves the first-render flag set; on a controller in
that state to which an `ngModel` controller is bound (`this.ngModel` is truthy
and has the array `$viewChangeListeners`), the first `$onChanges` call appends
exactly one listener to that array, every sequence of one or more calls
appends exactly that one listener in total, and running the listener is a
call of `render`. -/
theorem onChanges_registers_one_listener (o : Options) (c : Ctrl) (first : Changes)
    (later : List Changes) (listeners : List Callback)
    (hfirst : c.self "__isFirstRender" = Val.bool true)
    (hmodel : (c.self "ngModel").truthy = true)
    (hctrl : ngModelListeners c = some listeners) :
    ngModelListeners (onChanges o c first).state =
        some (listeners ++ [Callback.viewChangeRender])
      ∧ ngModelListeners (onChangesAll o c (first :: later)).state =
        some (listeners ++ [Callback.viewChangeRender])
      ∧ (∀ (host : Host) (s : Ctrl),
          runCallback o host Callback.viewChangeRender s = Completion.normal (render o s))
      ∧ (∀ (host : Host) (inst : String → Val) (deps : List Val),
          (construct o host inst deps).state.self "__isFirstRender" = Val.bool true) := by
  obtain ⟨c₁, h1, hflag, hl⟩ := onChanges_first_registers o c first listeners hfirst hmodel hctrl
  obtain ⟨cₙ, hn, hln⟩ := onChangesAll_after_first o later c₁ hflag
  have hall : onChangesAll o c (first :: later) = Completion.normal cₙ := by
    simp only [onChangesAll, h1, hn]
  refine ⟨by rw [h1]; exact hl, by rw [hall]; exact hln.trans hl, fun _ _ => rfl, ?_⟩
  intro host inst deps
  rw [construct_self _ _ _ _ _ (by decide)]
  simp [instantiate, setField]

theorem onChanges_registers_one_listener_witness :
    ngModelCtrl.self "__isFirstRender" = Val.bool true
      ∧ (ngModelCtrl.self "ngModel").truthy = true
      ∧ ngModelListeners ngModelCtrl = some []
      ∧ ngModelListeners (onChangesAll plainOptions ngModelCtrl
            [singleChange "x" (Val.num 1), singleChange "x" (Val.num 2)]).state =
          some ([] ++ [Callback.viewChangeRender]) :=
  ⟨by decide, by decide, by decide,
    (onChanges_registers_one_listener plainOptions ngModelCtrl (singleChange "x" (Val.num 1))
      [singleChange "x" (Val.num 2)] [] (by decide) (by decide) (by decide)).2.1⟩

end React2Angular

namespace React2Angular

theorem foldl_DI_props (inj : String → Val) (di : List String) (p : Props) (key : String) :
    (di.foldl (fun q d => Props.set q d (inj d)) p) key =
      if key ∈ di then some (inj key) else p key := by
  induction di generalizing p with
  | nil => simp
  | cons d ds ih =>
    simp only [List.foldl_cons, ih, List.mem_cons]
    by_cases h1 : key ∈ ds
    · simp [h1]
    · by_cases h2 : key = d
      · simp [h1, h2, Props.set]
      · simp [h1, h2, Props.set]

theorem bindingProps_eq (o : Options) (self : String → Val) :
    bindingProps o self =
      (((o.bindings.getD []).map (fun entry => entry.1)).filter
          (fun name => (self name).truthy)).foldl
        (fun p name => Props.set p (renameClass name) (self name)) Props.empty := by
  have hstep : (fun (p : Props) (name : String) =>
        if name = "class" then Props.set p "className" (self "class")
        else Props.set p name (self name))
      = (fun p name => Props.set p (renameClass name) (self name)) := by
    funext p name
    by_cases h : name = "class" <;> simp [renameClass, h]
  unfold bindingProps
  simp only [hstep]

theorem foldl_rename_isSome (self : String → Val) (names : List String) (p : Props)
    (key : String) :
    ((names.foldl (fun q name => Props.set q (renameClass name) (self name)) p) key).isSome = true
      ↔ ((p key).isSome = true ∨ ∃ k ∈ names, renameClass k = key) := by
  induction names generalizing p with
  | nil => simp
  | cons n ns ih =>
    simp only [List.foldl_cons, ih, List.mem_cons]
    by_cases h : key = renameClass n
    · subst h
      simp [Props.set]
    · have h' : ¬ renameClass n = key := fun e => h e.symm
      simp [Props.set, h, h']

theorem foldl_rename_value (self : String → Val) (names : List String) (p : Props)
    (key : String) (v : Val)
    (huniq : ∀ k ∈ names, renameClass k = key → self k = v) :
    (names.foldl (fun q name => Props.set q (renameClass name) (self name)) p) key =
      if ∃ k ∈ names, renameClass k = key then some v else p key := by
  induction names generalizing p with
  | nil => simp
  | cons n ns ih =>
    have hns : ∀ k ∈ ns, renameClass k = key → self k = v :=
      fun k hk => huniq k (List.mem_cons_of_mem _ hk)
    simp only [List.foldl_cons, ih _ hns, List.mem_cons]
    by_cases h1 : ∃ k ∈ ns, renameClass k = key
    · have h1' : ∃ k, (k = n ∨ k ∈ ns) ∧ renameClass k = key := by
        obtain ⟨k, hk, e⟩ := h1
        exact ⟨k, Or.inr hk, e⟩
      simp [h1, h1']
    · by_cases h2 : renameClass n = key
      · have h2' : ∃ k, (k = n ∨ k ∈ ns) ∧ renameClass k = key := ⟨n, Or.inl rfl, h2⟩
        have hv : self n = v := huniq n (List.mem_cons_self _ _) h2
        simp [h1, h2', Props.set, h2.symm, hv]
      · have h2' : ¬ ∃ k, (k = n ∨ k ∈ ns) ∧ renameClass k = key := by
          rintro ⟨k, hk | hk, e⟩
          · exact h2 (hk ▸ e)
          · exact h1 ⟨k, hk, e⟩
        have h3 : ¬ key = renameClass n := fun e => h2 e.symm
        simp [h1, h2', Props.set, h3]

/-- C8, as the claim states it, fails in three ways, each on a constructor run
that finishes: with `DI = ['$http']` and no bindings, props has the key
`$http`; with the bindings `class` and `className` both truthy on the
instance, `props.className` is the value of `className`, not that of `class`;
with a binding named `props`, props has the key `props` although the instance
had no truthy value for it. -/
theorem construct_props_not_only_bindings :
    (httpOptions.bindings = some []
        ∧ (construct httpOptions leftDivHost (fun _ => Val.undefined)
            ((dependencyNames httpOptions).map injectByName)).isNormal = true
        ∧ (construct httpOptions leftDivHost (fun _ => Val.undefined)
            ((dependencyNames httpOptions).map injectByName)).state.props "$http"
          = some (Val.obj 5))
      ∧ (classNameInstance "class" = Val.str "a"
        ∧ (construct classNameOptions leftDivHost classNameInstance
            ((dependencyNames classNameOptions).map injectByName)).isNormal = true
        ∧ (construct classNameOptions leftDivHost classNameInstance
            ((dependencyNames classNameOptions).map injectByName)).state.props
              (renameClass "class")
          = some (Val.str "b"))
      ∧ ((construct propsBindingOptions leftDivHost (fun _ => Val.undefined)
            ((dependencyNames propsBindingOptions).map injectByName)).isNormal = true
        ∧ (construct propsBindingOptions leftDivHost (fun _ => Val.undefined)
            ((dependencyNames propsBindingOptions).map injectByName)).state.props "props"
          = some Val.ownProps) := by
  decide

/-- C8, amended: when the host injects the dependencies positionally, then
immediately after the constructor finishes, with `this[k]` read after
`this.props` has been set to the new props object (so that `this.props` is
that object): the keys of props are exactly the renamed binding keys whose
`this[k]` is truthy together with the names of `DI`; every name of `DI` holds
its injected dependency; and a binding key `k` with truthy `this[k]` whose
renamed key is no name of `DI` and is shared with no other truthy binding key
holds `this[k]`. -/
theorem construct_props (o : Options) (host : Host) (inst inj : String → Val) (c : Ctrl)
    (hdone : construct o host inst ((dependencyNames o).map inj) = Completion.normal c) :
    (∀ key, (c.props key).isSome = true ↔
          ((∃ k ∈ (o.bindings.getD []).map (fun entry => entry.1),
              (setField inst "props" Val.ownProps k).truthy = true ∧ renameClass k = key)
            ∨ key ∈ o.DI.getD []))
      ∧ (∀ d ∈ o.DI.getD [], c.props d = some (inj d))
      ∧ (∀ k ∈ (o.bindings.getD []).map (fun entry => entry.1),
          (setField inst "props" Val.ownProps k).truthy = true →
          renameClass k ∉ o.DI.getD [] →
          (∀ k' ∈ (o.bindings.getD []).map (fun entry => entry.1),
            (setField inst "props" Val.ownProps k').truthy = true →
            renameClass k' = renameClass k → k' = k) →
          c.props (renameClass k) = some (setField inst "props" Val.ownProps k)) := by
  have hprops := construct_injected o host inst inj c hdone
  refine ⟨?_, ?_, ?_⟩
  · intro key
    rw [hprops, foldl_DI_props]
    by_cases hd : key ∈ o.DI.getD []
    · simp [hd]
    · simp only [hd, if_false, or_false, bindingProps_eq, foldl_rename_isSome, Props.empty,
        Option.isSome_none, Bool.false_eq_true, false_or, List.mem_filter]
      constructor
      · rintro ⟨k, ⟨hk, ht⟩, e⟩
        exact ⟨k, hk, ht, e⟩
      · rintro ⟨k, hk, ht, e⟩
        exact ⟨k, ⟨hk, ht⟩, e⟩
  · intro d hd
    rw [hprops, foldl_DI_props]
    simp [hd]
  · intro k hk ht hnd huniq
    rw [hprops, foldl_DI_props]
    simp only [hnd, if_false, bindingProps_eq]
    rw [foldl_rename_value _ _ _ _ (setField inst "props" Val.ownProps k)]
    · have hex : ∃ k₁ ∈ ((o.bindings.getD []).map (fun entry => entry.1)).filter
          (fun name => (setField inst "props" Val.ownProps name).truthy),
          renameClass k₁ = renameClass k :=
        ⟨k, List.mem_filter.mpr ⟨hk, ht⟩, rfl⟩
      simp only [hex, if_true]
    · intro k' hk' e
      have hm := List.mem_filter.mp hk'
      rw [huniq k' hm.1 hm.2 e]

theorem construct_props_witness :
    ∃ c, construct boundOptions leftDivHost boundInstance
          ((dependencyNames boundOptions).map injectByName) = Completion.normal c
      ∧ c.props "className" = some (Val.str "c")
      ∧ c.props "$http" = some (Val.obj 5) := by
  obtain ⟨c, hc⟩ := construct_completes_without_transclusion boundOptions leftDivHost
    boundInstance injectByName (by decide)
  obtain ⟨_, hdi, hval⟩ :=
    construct_props boundOptions leftDivHost boundInstance injectByName c hc
  refine ⟨c, hc, ?_, ?_⟩
  · exact hval "class" (by decide) (by decide) (by decide) (by decide)
  · exact hdi "$http" (by decide)

end React2Angular

namespace React2Angular

theorem lodashEach_value {α β : Type} (chain : Chain (List α)) (iteratee : α → Bool)
    (surplus : β) : (lodashEach chain iteratee surplus).value? = none := by
  cases chain <;> rfl

/-- In named-map mode `setTransclusions` raises a TypeError and leaves the
controller, its props included, as it was. -/
theorem setTransclusions_map_throws (o : Options) (host : Host) (c : Ctrl)
    (h : hasTranscludeMap o = true) :
    setTransclusions o host c = Completion.thrown "TypeError" c := by
  have hT : hasTransclusion o = true := by simp [hasTransclusion, h]
  unfold setTransclusions
  simp only [hT, h, Bool.not_true, Bool.false_eq_true, if_false, if_true]
  cases lodashFilter c.compiled.values
      (fun compiled => compiled.map (fun node => (node.tagName.getD "") != "")) with
  | none => rfl
  | some filtered => simp only [lodashEach_value]

/-- C5, evaluated at `transclude = \x7bleft: '?leftDiv'\x7d` with a compiled
`left-div` element under `left`: the element is an actual element and its
conversion with key `left` exists, yet `setTransclusions` ends in a TypeError
and props has no `left` afterwards. -/
theorem setTransclusions_map_assigns_nothing :
    hasTranscludeMap leftDivOptions = true
      ∧ leftDivCtrl.compiled.values = [some (Node.element "LEFT-DIV" [] "L" "L")]
      ∧ elementToReact (Node.element "LEFT-DIV" [] "L" "L") "left" =
          some { type := "left-div"
                 config := [("dangerouslySetInnerHTML", ConfigVal.html "L"),
                            ("key", ConfigVal.str "idx-left-div-left")] }
      ∧ ∀ host : Host,
          (setTransclusions leftDivOptions host leftDivCtrl).isNormal = false
          ∧ (setTransclusions leftDivOptions host leftDivCtrl).state.props "left" = none := by
  refine ⟨by decide, by decide, by decide, ?_⟩
  intro host
  rw [setTransclusions_map_throws leftDivOptions host leftDivCtrl (by decide)]
  exact ⟨rfl, rfl⟩

/-- What holds of render dispatch in every configuration: the render is
synchronous exactly when no transclusion is configured and `require` is absent
or empty; a synchronous `render` is one `renderInstant`; a deferred `render`
makes no render call and hands the one callback to the scheduler. -/
theorem render_dispatch (o : Options) (c : Ctrl) :
    (withTimeout o = false ↔
        (o.hasChild.truthy = false ∧ o.transclude.isObject = false
          ∧ (o.require = none ∨ o.require = some [])))
      ∧ (withTimeout o = false → render o c = renderInstant c)
      ∧ (withTimeout o = true →
          (render o c).rendered = c.rendered
          ∧ (render o c).scheduled = c.scheduled ++ [Callback.deferredRender]) := by
  refine ⟨?_, ?_, ?_⟩
  · unfold withTimeout hasTransclusion
    rw [hasTranscludeMap_eq_isObject]
    cases hr : o.require with
    | none => simp
    | some r => cases r <;> simp
  · intro h
    simp [render, h]
  · intro h
    simp [render, h]

/-- Outside named-map mode, on a controller whose `compiled` is not a map, the
scheduled callback applies the transclusions, copies the required controllers
into props and commits one render. -/
theorem deferredRender_commits (o : Options) (host : Host) (c : Ctrl)
    (h : hasTranscludeMap o = false) (hc : ∀ m, c.compiled ≠ Compiled.map m) :
    ∃ c₁, setTransclusions o host c = Completion.normal c₁
      ∧ runCallback o host Callback.deferredRender c =
          Completion.normal
            (renderInstant { c₁ with
              props := (o.require.getD []).foldl
                (fun p entry => Props.set p entry.1 (c₁.self entry.1)) c₁.props })
      ∧ (runCallback o host Callback.deferredRender c).state.rendered.length =
          c.rendered.length + 1 := by
  have hset : ∃ c₁, setTransclusions o host c = Completion.normal c₁
      ∧ c₁.rendered = c.rendered := by
    unfold setTransclusions
    by_cases hT : hasTransclusion o = true
    · simp only [hT, h, Bool.not_true, Bool.false_eq_true, if_false]
      cases hcomp : c.compiled with
      | unset => exact ⟨_, rfl, rfl⟩
      | nodes ns =>
        simp only [nodesToReact_total]
        exact ⟨_, rfl, rfl⟩
      | map m => exact absurd hcomp (hc m)
    · simp only [hT, Bool.not_false, if_true]
      exact ⟨_, rfl, rfl⟩
  obtain ⟨c₁, h1, h2⟩ := hset
  refine ⟨c₁, h1, ?_, ?_⟩
  · simp only [runCallback, deferredRender, h1]
  · simp only [runCallback, deferredRender, h1, Completion.state, renderInstant,
      List.length_append, List.length_singleton, h2]

/-- C4, evaluated at `transclude = \x7bleft: '?leftDiv'\x7d` on any controller
state: `render` makes no render call and hands exactly one callback to the
scheduler, as claimed, but running that callback ends in the TypeError of
`setTransclusions`, without a render call. -/
theorem deferred_callback_never_commits_in_map_mode :
    withTimeout leftDivOptions = true
      ∧ ∀ (host : Host) (c : Ctrl),
          (render leftDivOptions c).rendered = c.rendered
          ∧ (render leftDivOptions c).scheduled = c.scheduled ++ [Callback.deferredRender]
          ∧ (runCallback leftDivOptions host Callback.deferredRender
              (render leftDivOptions c)).isNormal = false
          ∧ (runCallback leftDivOptions host Callback.deferredRender
              (render leftDivOptions c)).state.rendered = c.rendered := by
  refine ⟨by decide, ?_⟩
  intro host c
  have hw : withTimeout leftDivOptions = true := by decide
  have h : runCallback leftDivOptions host Callback.deferredRender
      (render leftDivOptions c) =
        Completion.thrown "TypeError" (render leftDivOptions c) := by
    simp only [runCallback, deferredRender,
      setTransclusions_map_throws leftDivOptions host _ (by decide)]
  rw [h]
  have hr := ((render_dispatch leftDivOptions c).2.2 hw)
  exact ⟨hr.1, hr.2, rfl, hr.1⟩

end React2Angular
